import Mathlib

set_option linter.unusedVariables false

/-!
Verification of the `pandas_plink` PLINK reader (`src/pandas_plink/read.py`)
against its natural-language specification.

Files are shallow-embedded as lists of byte values (`Nat`, each `< 256`).
Python exceptions are embedded in an explicit error type: `IndexError`
(raised by out-of-range indexing such as `arr[0]` on an empty bytes object)
and `ValueError` with its message (the spec calls these `InvalidFormat`).
-/

/-- Python exceptions relevant to `read.py`. -/
inductive PyError where
  | indexError
  | valueError (msg : String)
deriving DecidableEq, Repr

/-- Embedding of `_check_bed_header` (read.py lines 171-176).

Python source:
    with open(fn, "rb") as f:
        arr = f.read(2)
        ok = _ord(arr[0]) == 108 and _ord(arr[1]) == 27
        if not ok:
            raise ValueError("Invalid BED file: %s." % fn)

`f.read(2)` returns up to the first two bytes of the file; `and`
short-circuits, and indexing past the end of `arr` raises `IndexError`. -/
def check_bed_header (fn : String) (file : List Nat) : Except PyError Unit :=
  match file.take 2 with
  | [] => .error .indexError
  | [b0] =>
    if b0 = 108 then .error .indexError
    else .error (.valueError ("Invalid BED file: " ++ fn ++ "."))
  | b0 :: b1 :: _ =>
    if b0 = 108 ∧ b1 = 27 then .ok ()
    else .error (.valueError ("Invalid BED file: " ++ fn ++ "."))

/-- Embedding of `_major_order` (read.py lines 179-187).

Python source:
    with open(fn, "rb") as f:
        f.seek(2)
        arr = f.read(1)
        if _ord(arr[0]) == 1:
            return 'snp'
        elif _ord(arr[0]) == 0:
            return 'individual'
        raise ValueError("Couldn't understand matrix layout.")
-/
def major_order (fn : String) (file : List Nat) : Except PyError String :=
  match (file.drop 2).take 1 with
  | [] => .error .indexError
  | b :: _ =>
    if b = 1 then .ok "snp"
    else if b = 0 then .ok "individual"
    else .error (.valueError "Couldn\x27t understand matrix layout.")

/-- Modelled from the spec: the 2-bit code → genotype mapping of the native
decoder `read_bed` (module `_bed_read`, absent from the sources): 0b00 → 2,
0b10 → 1, 0b11 → 0, 0b01 → missing sentinel 3. -/
def decode2 (c : Nat) : Nat :=
  if c = 0 then 2 else if c = 1 then 3 else if c = 2 then 1 else 0

/-- Modelled from the spec: the inverse of the 4-way mapping, used to
re-encode a genotype call back into its 2-bit code. -/
def encode2 (g : Nat) : Nat :=
  if g = 2 then 0 else if g = 3 then 1 else if g = 1 then 2 else 3

/-- Modelled from the spec: one payload byte unpacks to four 2-bit codes,
least-significant pair first. -/
def unpackByte (b : Nat) : List Nat :=
  [b % 4, b / 4 % 4, b / 16 % 4, b / 64 % 4]

/-- Modelled from the spec: pack a list of 2-bit codes into one byte,
least-significant pair first; absent trailing codes are zero padding bits. -/
def packCodes : List Nat → Nat
  | [] => 0
  | c :: cs => c % 4 + 4 * packCodes cs

/-- Modelled from the spec: each physical row is padded to a whole number of
bytes, `bytes_per_row = ceil(num_cols / 4)`. -/
def bytesPerRow (ncols : Nat) : Nat := (ncols + 3) / 4

/-- Modelled from the spec: decode one physical row of `ncols` genotype calls
from its packed bytes, ignoring trailing padding bits. -/
def decodeRow : List Nat → Nat → List Nat
  | _, 0 => []
  | [], _ + 1 => []
  | b :: bs, n + 1 =>
    (((unpackByte b).take (n + 1)).map decode2) ++ decodeRow bs (n + 1 - 4)
termination_by bs n => n

/-- Modelled from the spec: re-encode one row of genotype calls into packed
bytes, four calls per byte, zero padding bits in the final byte. -/
def encodeRow : List Nat → List Nat
  | [] => []
  | g :: gs =>
    packCodes (((g :: gs).take 4).map encode2) :: encodeRow ((g :: gs).drop 4)
termination_by l => l.length
decreasing_by simp; omega

/-- Zero out the padding bits of a packed row: the final byte of a row whose
tail holds fewer than 4 cells keeps only its populated low bit pairs. -/
def maskRow : List Nat → Nat → List Nat
  | _, 0 => []
  | [], _ + 1 => []
  | b :: bs, n + 1 =>
    (if 4 ≤ n + 1 then b else b % 4 ^ (n + 1)) :: maskRow bs (n + 1 - 4)
termination_by bs n => n

/-- Modelled from the spec: decode a full payload of `nrows` physical rows,
each occupying `bytesPerRow ncols` bytes, into the row-major matrix. -/
def decode_bed_payload : List Nat → Nat → Nat → List (List Nat)
  | _, 0, _ => []
  | bs, r + 1, ncols =>
    decodeRow (bs.take (bytesPerRow ncols)) ncols ::
      decode_bed_payload (bs.drop (bytesPerRow ncols)) r ncols

/-- Re-encode a decoded matrix row by row into a flat packed payload. -/
def encode_bed_payload : List (List Nat) → List Nat
  | [] => []
  | row :: rest => encodeRow row ++ encode_bed_payload rest

/-- A payload with the padding bits of every row zeroed. -/
def mask_bed_payload : List Nat → Nat → Nat → List Nat
  | _, 0, _ => []
  | bs, r + 1, ncols =>
    maskRow (bs.take (bytesPerRow ncols)) ncols ++
      mask_bed_payload (bs.drop (bytesPerRow ncols)) r ncols

/-- Modelled from the spec: the native decoder `read_bed(fn, nrows, ncols)`
(module `_bed_read`, absent from the sources) reads the file and decodes the
payload after the 3-byte header into an `nrows × ncols` matrix. -/
def read_bed (file : List Nat) (nrows ncols : Nat) : List (List Nat) :=
  decode_bed_payload (file.drop 3) nrows ncols

/-- Embedding of `_read_bed` (read.py lines 159-168): validate the header,
read the orientation, choose the physical dimensions, and call the decoder.

Python source:
    _check_bed_header(fn)
    major = _major_order(fn)
    ncols = nmarkers if major == 'individual' else nsamples
    nrows = nmarkers if major == 'snp' else nsamples
    return read_bed(fn, nrows, ncols)

(The `_ascii_airlock` call on the path only re-types the path itself and is
embedded separately as `ascii_airlock`.) -/
def read_bed_model (fn : String) (file : List Nat) (nsamples nmarkers : Nat) :
    Except PyError (List (List Nat)) := do
  check_bed_header fn file
  let major ← major_order fn file
  let ncols := if major == "individual" then nmarkers else nsamples
  let nrows := if major == "snp" then nmarkers else nsamples
  pure (read_bed file nrows ncols)

/-- `msg` mentions the file path `fn`: the path occurs verbatim in the
message. -/
def mentionsPath (msg fn : String) : Prop :=
  ∃ pre suf, msg = pre ++ fn ++ suf

/-- One row of the marker-metadata (.bim) table: columns
`chrom snp cm pos a0 a1` (read.py lines 119-129). The `cm` column is kept as
its raw text token: its floating-point value plays no role in any claim. -/
structure MarkerRecord where
  chrom : String
  snp : String
  cm : String
  pos : Int
  a0 : String
  a1 : String
deriving DecidableEq, Repr

/-- One row of the sample-metadata (.fam) table: columns
`fid iid father mother gender trait` (read.py lines 140-152). -/
structure SampleRecord where
  fid : String
  iid : String
  father : String
  mother : String
  gender : String
  trait : String
deriving DecidableEq, Repr

/-- Comparator for `df.set_index(['chrom', 'pos']); df.sort_index()` in
`_read_bim`: order by chromosome label, then base-pair position; the
attached index `i` (first component) is ignored by the key. -/
def bimKeyLe (a b : Nat × MarkerRecord) : Bool :=
  match compare a.2.chrom b.2.chrom with
  | .lt => true
  | .gt => false
  | .eq => decide (a.2.pos ≤ b.2.pos)

/-- Comparator for `df.sort_index()` in `_read_fam`, whose index is
`['fid', 'iid']`; the attached `i` is ignored by the key. -/
def famKeyLe (a b : Nat × SampleRecord) : Bool :=
  match compare a.2.fid b.2.fid with
  | .lt => true
  | .gt => false
  | .eq => decide (a.2.iid ≤ b.2.iid)

/-- Embedding of `_read_bim` (read.py lines 119-137) on already-parsed rows:
`df['i'] = range(df.shape[0])` attaches the 0-based file-order position to
each record, and the subsequent `sort_index` permutes the indexed rows
(embedded as a merge sort on the chrom/pos key). -/
def read_bim_table (rows : List MarkerRecord) : List (Nat × MarkerRecord) :=
  (rows.enum).mergeSort bimKeyLe

/-- Embedding of `_read_fam` (read.py lines 140-157) on already-parsed rows:
`i` is attached in file order, then `sort_index` permutes the indexed rows. -/
def read_fam_table (rows : List SampleRecord) : List (Nat × SampleRecord) :=
  (rows.enum).mergeSort famKeyLe

/-- The three artifacts returned by `read_plink`. -/
structure ReadPlinkResult where
  bim : List (Nat × MarkerRecord)
  fam : List (Nat × SampleRecord)
  bed : List (List Nat)
deriving DecidableEq, Repr

/-- The observable behaviour of one `read_plink` run: the returned data (or
the raised error), the file paths opened, and the diagnostic output. -/
structure ReadPlinkOutput where
  result : Except PyError ReadPlinkResult
  accessed : List String
  log : List String
deriving Repr

/-- Embedding of `read_plink` (read.py lines 104-117) on parsed metadata rows
and the raw .bed byte content.

Python source:
    fn = {s: "%s.%s" % (file_prefix, s) for s in ['bed', 'bim', 'fam']}
    with TimeIt("Reading %s..." % fn['bim'], not verbose):
        bim = _read_bim(fn['bim'])
    nmarkers = bim.shape[0]
    with TimeIt("Reading %s..." % fn['fam'], not verbose):
        fam = _read_fam(fn['fam'])
    nsamples = fam.shape[0]
    with TimeIt("Reading %s..." % fn['bed'], not verbose):
        bed = _read_bed(fn['bed'], nsamples, nmarkers)
    return (bim, fam, bed)

`TimeIt` only writes progress text to a diagnostic stream when enabled
(second argument false), so `verbose` feeds nothing but `log`. -/
def read_plink (fp : String) (bimRows : List MarkerRecord)
    (famRows : List SampleRecord) (bedFile : List Nat) (verbose : Bool) :
    ReadPlinkOutput :=
  let fn_bed := fp ++ "." ++ "bed"
  let fn_bim := fp ++ "." ++ "bim"
  let fn_fam := fp ++ "." ++ "fam"
  let bim := read_bim_table bimRows
  let nmarkers := bim.length
  let fam := read_fam_table famRows
  let nsamples := fam.length
  { result :=
      match read_bed_model fn_bed bedFile nsamples nmarkers with
      | .error e => .error e
      | .ok bed => .ok ⟨bim, fam, bed⟩
    accessed := [fn_bim, fn_fam, fn_bed]
    log :=
      if verbose then
        ["Reading " ++ fn_bim ++ "...", "Reading " ++ fn_fam ++ "...",
         "Reading " ++ fn_bed ++ "..."]
      else [] }

/-- A Python value that is either `str` or `bytes`, the two input types
`_ascii_airlock` handles. -/
inductive PyStrOrBytes where
  | str (s : String)
  | bytes (b : List Nat)
deriving DecidableEq, Repr

/-- Python's `str.encode()` with its default UTF-8 codec, as raw byte
values. -/
def encodeUtf8 (s : String) : List Nat :=
  s.toUTF8.toList.map (fun c => c.toNat)

/-- Embedding of `_ascii_airlock` (read.py lines 190-193).

Python source:
    if not isinstance(v, bytes):
        v = v.encode()
    return v
-/
def ascii_airlock : PyStrOrBytes → PyStrOrBytes
  | .str s => .bytes (encodeUtf8 s)
  | .bytes b => .bytes b

/-- Discriminator: is the value of Python type `bytes`? -/
def isBytes : PyStrOrBytes → Bool
  | .str _ => false
  | .bytes _ => true

/-- C1: for every pair of leading bytes, `_check_bed_header` succeeds exactly on
the magic pair (108, 27) and raises the InvalidFormat `ValueError` on every
other pair; covers all 256 × 256 combinations via `Fin 256`. -/
theorem check_bed_header_magic (fn : String) (b0 b1 : Fin 256) (rest : List Nat) :
    check_bed_header fn (b0.val :: b1.val :: rest) =
      (if b0.val = 108 ∧ b1.val = 27 then Except.ok ()
       else Except.error (.valueError ("Invalid BED file: " ++ fn ++ "."))) := by
  rfl

/-- C2: on a file with at least three bytes, `_major_order` returns `"snp"`
when byte 2 is 1, `"individual"` when byte 2 is 0, and raises the
InvalidFormat `ValueError` exactly when byte 2 is neither 0 nor 1. -/
theorem major_order_byte2 (fn : String) (b0 b1 b2 : Nat) (rest : List Nat) :
    (b2 = 1 → major_order fn (b0 :: b1 :: b2 :: rest) = .ok "snp") ∧
    (b2 = 0 → major_order fn (b0 :: b1 :: b2 :: rest) = .ok "individual") ∧
    ((∃ msg, major_order fn (b0 :: b1 :: b2 :: rest) = .error (.valueError msg))
      ↔ (b2 ≠ 0 ∧ b2 ≠ 1)) := by
  refine ⟨fun h => by simp [major_order, h], fun h => by simp [major_order, h], ?_⟩
  constructor
  · rintro ⟨msg, hmsg⟩
    by_contra hcon
    rcases Decidable.not_and_iff_or_not.mp hcon with h | h
    · rw [not_ne_iff.mp h] at hmsg
      simp [major_order] at hmsg
    · rw [not_ne_iff.mp h] at hmsg
      simp [major_order] at hmsg
  · rintro ⟨h0, h1⟩
    exact ⟨"Couldn\x27t understand matrix layout.", by simp [major_order, h0, h1]⟩

/-- C3: `_read_bed` invokes the decoder with nrows = num_markers and
ncols = num_samples under snp-major orientation (byte 2 = 1), and with
nrows = num_samples and ncols = num_markers under individual-major
orientation (byte 2 = 0). -/
theorem read_bed_dims_by_orientation (fn : String) (ns nm : Nat) (rest : List Nat) :
    read_bed_model fn (108 :: 27 :: 1 :: rest) ns nm
        = .ok (decode_bed_payload rest nm ns) ∧
    read_bed_model fn (108 :: 27 :: 0 :: rest) ns nm
        = .ok (decode_bed_payload rest ns nm) := by
  constructor <;> rfl

set_option maxRecDepth 4096 in
/-- Packing the first `k ≤ 4` codes of a byte after a decode/re-encode pass
recovers the byte modulo `4^k`: the per-byte core of the round-trip law. -/
lemma packCodes_unpackByte :
    ∀ (b : Fin 256) (k : Fin 5),
      packCodes ((((unpackByte b.val).take k.val).map decode2).map encode2)
        = b.val % 4 ^ k.val := by
  decide

/-- Take-4 specialisation of `packCodes_unpackByte`, with the modulus
discharged: a full byte survives decode/re-encode unchanged. -/
lemma packCodes_unpackByte_full (b : Nat) (hb : b < 256) :
    packCodes (((unpackByte b).map decode2).map encode2) = b := by
  have h := packCodes_unpackByte ⟨b, hb⟩ ⟨4, by omega⟩
  simpa [unpackByte, Nat.mod_eq_of_lt hb] using h

/-- `packCodes_unpackByte` restated over `Nat` with side conditions. -/
lemma packCodes_unpackByte_take (b k : Nat) (hb : b < 256) (hk : k ≤ 4) :
    packCodes ((((unpackByte b).take k).map decode2).map encode2) = b % 4 ^ k :=
  packCodes_unpackByte ⟨b, hb⟩ ⟨k, by omega⟩

/-- `encodeRow` consumes exactly four leading cells at a time. -/
lemma encodeRow_cons4 (a b c d : Nat) (t : List Nat) :
    encodeRow (a :: b :: c :: d :: t)
      = packCodes [encode2 a, encode2 b, encode2 c, encode2 d] :: encodeRow t := by
  simp [encodeRow]

/-- `decodeRow` of an exhausted byte list is empty. -/
lemma decodeRow_nil (n : Nat) : decodeRow [] n = [] := by
  cases n <;> simp [decodeRow]

/-- `maskRow` of an exhausted byte list is empty. -/
lemma maskRow_nil (n : Nat) : maskRow [] n = [] := by
  cases n <;> simp [maskRow]

/-- Row-level round trip: decoding a packed row of `ncols` cells and
re-encoding it reproduces the row bytes with padding bits zeroed. -/
lemma encodeRow_decodeRow (bs : List Nat) :
    ∀ ncols, bs.length = bytesPerRow ncols → (∀ b ∈ bs, b < 256) →
      encodeRow (decodeRow bs ncols) = maskRow bs ncols := by
  induction bs with
  | nil =>
    intro ncols hlen hb
    have hn : ncols = 0 := by
      unfold bytesPerRow at hlen
      simp at hlen
      omega
    subst hn
    simp [decodeRow_nil, maskRow_nil, encodeRow]
  | cons b bs ih =>
    intro ncols hlen hb
    have hb0 : b < 256 := hb b (by simp)
    match ncols with
    | 0 =>
      unfold bytesPerRow at hlen
      simp at hlen
    | n + 1 =>
      by_cases h4 : 4 ≤ n + 1
      · have hlen' : bs.length = bytesPerRow (n + 1 - 4) := by
          unfold bytesPerRow at hlen ⊢
          simp at hlen
          omega
        have hrest := ih (n + 1 - 4) hlen' (fun x hx => hb x (by simp [hx]))
        have htake : (unpackByte b).take (n + 1) = unpackByte b :=
          List.take_of_length_le (by simp [unpackByte]; omega)
        have hmask : maskRow (b :: bs) (n + 1) = b :: maskRow bs (n + 1 - 4) := by
          simp [maskRow, h4]
        rw [decodeRow, htake, hmask]
        have hfull := packCodes_unpackByte_full b hb0
        simp only [unpackByte, List.map_cons, List.map_nil] at hfull ⊢
        rw [List.cons_append, List.cons_append, List.cons_append, List.cons_append,
          List.nil_append, encodeRow_cons4, hrest, hfull]
      · have hbs : bs = [] := by
          have hlen0 : bs.length = 0 := by
            unfold bytesPerRow at hlen
            simp at hlen
            omega
          exact List.length_eq_zero.mp hlen0
        subst hbs
        have hz : n + 1 - 4 = 0 := by omega
        rw [decodeRow, hz, decodeRow_nil, List.append_nil]
        have hmask : maskRow [b] (n + 1) = [b % 4 ^ (n + 1)] := by
          simp [maskRow, h4, maskRow_nil]
        rw [hmask]
        have hpack := packCodes_unpackByte_take b (n + 1) hb0 (by omega)
        have hn2 : n ≤ 2 := by omega
        interval_cases n
        · simp [unpackByte, encodeRow] at hpack ⊢
          exact hpack
        · simp [unpackByte, encodeRow] at hpack ⊢
          exact hpack
        · simp [unpackByte, encodeRow] at hpack ⊢
          exact hpack

/-- Payload-level round trip, by induction on the number of physical rows. -/
lemma encode_decode_payload (nrows : Nat) :
    ∀ (bs : List Nat) (ncols : Nat),
      bs.length = nrows * bytesPerRow ncols → (∀ b ∈ bs, b < 256) →
      encode_bed_payload (decode_bed_payload bs nrows ncols)
        = mask_bed_payload bs nrows ncols := by
  induction nrows with
  | zero => intro bs ncols hlen hb; rfl
  | succ r ih =>
    intro bs ncols hlen hb
    simp only [decode_bed_payload, encode_bed_payload, mask_bed_payload]
    have hk : bytesPerRow ncols ≤ bs.length := by
      rw [hlen, Nat.succ_mul]
      exact Nat.le_add_left _ _
    have hklen : (bs.take (bytesPerRow ncols)).length = bytesPerRow ncols := by
      simp [List.length_take]
      omega
    congr 1
    · exact encodeRow_decodeRow (bs.take (bytesPerRow ncols)) ncols hklen
        (fun x hx => hb x (List.take_subset _ _ hx))
    · refine ih (bs.drop (bytesPerRow ncols)) ncols ?_
        (fun x hx => hb x (List.drop_subset _ _ hx))
      rw [List.length_drop, hlen, Nat.succ_mul, Nat.add_sub_cancel]

/-- C4: decoding a valid packed BED payload (`nrows` physical rows of
`ncols` cells each) into the genotype matrix and re-encoding every cell
through the inverse of the 4-way 2-bit mapping reproduces the original
packed bytes exactly, up to the ignored row-padding bits (formalised by
zeroing the padding bits of the original payload). -/
theorem bed_payload_roundtrip (bs : List Nat) (nrows ncols : Nat)
    (hlen : bs.length = nrows * bytesPerRow ncols)
    (hbytes : ∀ b ∈ bs, b < 256) :
    encode_bed_payload (decode_bed_payload bs nrows ncols)
      = mask_bed_payload bs nrows ncols :=
  encode_decode_payload nrows bs ncols hlen hbytes

/-- Witness for C4 at a concrete payload: two snp-major rows of three cells
each, first byte 0b11011000. -/
theorem bed_payload_roundtrip_witness :
    [216, 78].length = 2 * bytesPerRow 3 ∧ (∀ b ∈ [216, 78], b < 256) ∧
      encode_bed_payload (decode_bed_payload [216, 78] 2 3)
        = mask_bed_payload [216, 78] 2 3 :=
  ⟨by decide, by decide, bed_payload_roundtrip [216, 78] 2 3 (by decide) (by decide)⟩

/-- Every `ValueError` escaping `_check_bed_header` carries the message
`"Invalid BED file: <fn>."`. -/
lemma check_bed_header_msg (fn : String) (file : List Nat) (msg : String)
    (h : check_bed_header fn file = .error (.valueError msg)) :
    msg = "Invalid BED file: " ++ fn ++ "." := by
  unfold check_bed_header at h
  revert h
  cases hEq : file.take 2 with
  | nil => intro h; simp at h
  | cons b0 tl =>
    cases tl with
    | nil =>
      intro h
      by_cases hb : b0 = 108 <;> simp [hb] at h
      exact h.symm
    | cons b1 rest =>
      intro h
      by_cases hb : b0 = 108 ∧ b1 = 27 <;> simp [hb] at h
      exact h.symm

/-- Every `ValueError` escaping `_major_order` carries the fixed message
`"Couldn't understand matrix layout."`, independent of the path. -/
lemma major_order_msg (fn : String) (file : List Nat) (msg : String)
    (h : major_order fn file = .error (.valueError msg)) :
    msg = "Couldn\x27t understand matrix layout." := by
  unfold major_order at h
  revert h
  cases hEq : (file.drop 2).take 1 with
  | nil => intro h; simp at h
  | cons b tl =>
    intro h
    by_cases hb1 : b = 1
    · simp [hb1] at h
    · by_cases hb0 : b = 0 <;> simp [hb1, hb0] at h
      exact h.symm

/-- C5 counterexample: the unrecognized-orientation `ValueError` is raised
with a fixed message that does not contain the offending path. -/
theorem major_order_error_omits_path :
    major_order "/data/genotype_batches/plink_run_2016/chr01_main" [108, 27, 5]
        = .error (.valueError "Couldn\x27t understand matrix layout.") ∧
      ¬ mentionsPath "Couldn\x27t understand matrix layout."
          "/data/genotype_batches/plink_run_2016/chr01_main" := by
  refine ⟨rfl, ?_⟩
  rintro ⟨pre, suf, hmsg⟩
  have h := congrArg String.length hmsg
  rw [String.length_append, String.length_append] at h
  have h1 : ("Couldn\x27t understand matrix layout.").length = 34 := rfl
  have h2 : ("/data/genotype_batches/plink_run_2016/chr01_main").length = 48 := rfl
  rw [h1, h2] at h
  omega

/-- C5 amended: a `ValueError` from the header-magic check does carry the
offending path in its message, but a `ValueError` from the orientation check
carries the fixed message "Couldn't understand matrix layout.", which does
not name the path. -/
theorem invalidformat_message_contents (fn : String) (file : List Nat) (msg : String) :
    (check_bed_header fn file = .error (.valueError msg) → mentionsPath msg fn) ∧
    (major_order fn file = .error (.valueError msg)
        → msg = "Couldn\x27t understand matrix layout.") := by
  constructor
  · intro h
    exact ⟨"Invalid BED file: ", ".",
      by rw [check_bed_header_msg fn file msg h, String.append_assoc]⟩
  · exact major_order_msg fn file msg

/-- Witness for C5 amended: concrete header failure (path in message) and
concrete orientation failure (fixed message). -/
theorem invalidformat_message_contents_witness :
    (check_bed_header "g" [0, 27] = .error (.valueError "Invalid BED file: g.") ∧
      mentionsPath "Invalid BED file: g." "g") ∧
    (major_order "g" [108, 27, 9]
        = .error (.valueError "Couldn\x27t understand matrix layout.") ∧
      "Couldn\x27t understand matrix layout."
        = "Couldn\x27t understand matrix layout.") :=
  ⟨⟨rfl, (invalidformat_message_contents "g" [0, 27] "Invalid BED file: g.").1 rfl⟩,
   ⟨rfl, (invalidformat_message_contents "g" [108, 27, 9]
      "Couldn\x27t understand matrix layout.").2 rfl⟩⟩

/-- C9 counterexample: on the 1-byte file `[0]` — fewer than 2 bytes — the
header check does raise the InvalidFormat `ValueError` (the conjunction
short-circuits before the out-of-range index), contradicting the claim that
short reads always fail with `IndexError` first. -/
theorem short_file_header_valueerror :
    [(0 : Nat)].length < 2 ∧
      check_bed_header "f" [0] = .error (.valueError "Invalid BED file: f.") :=
  ⟨by decide, rfl⟩

/-- C9 amended: on a file with fewer than 2 bytes, `_check_bed_header` raises
`IndexError` only when the file is empty or its single byte equals 108 (the
short-circuited conjunction then evaluates `arr[1]`); a single byte other
than 108 still raises the InvalidFormat `ValueError`. -/
theorem check_bed_header_short_file (fn : String) (b : Nat) :
    check_bed_header fn [] = .error .indexError ∧
    check_bed_header fn [b]
      = (if b = 108 then Except.error PyError.indexError
         else .error (.valueError ("Invalid BED file: " ++ fn ++ "."))) :=
  ⟨rfl, rfl⟩

/-- C6: after `_read_bim` and `_read_fam` return, the `i` values are exactly
a permutation of `0..count-1`, and each record still carries its original
0-based file-order position: sorting permutes rows, never rewrites `i`. -/
theorem metadata_index_stable (mrows : List MarkerRecord) (srows : List SampleRecord) :
    ((read_bim_table mrows).map Prod.fst).Perm (List.range mrows.length) ∧
    (∀ p ∈ read_bim_table mrows, mrows[p.1]? = some p.2) ∧
    ((read_fam_table srows).map Prod.fst).Perm (List.range srows.length) ∧
    (∀ p ∈ read_fam_table srows, srows[p.1]? = some p.2) := by
  refine ⟨?_, ?_, ?_, ?_⟩
  · have h := (List.mergeSort_perm mrows.enum bimKeyLe).map Prod.fst
    rwa [List.enum_map_fst] at h
  · intro p hp
    exact List.mem_enum_iff_getElem?.mp (List.mem_mergeSort.mp hp)
  · have h := (List.mergeSort_perm srows.enum famKeyLe).map Prod.fst
    rwa [List.enum_map_fst] at h
  · intro p hp
    exact List.mem_enum_iff_getElem?.mp (List.mem_mergeSort.mp hp)

/-- C7: `read_plink` opens exactly the three paths obtained by appending
".bed", ".bim" and ".fam" to the file prefix, and no others. -/
theorem read_plink_paths (fp : String) (bimRows : List MarkerRecord)
    (famRows : List SampleRecord) (bedFile : List Nat) (verbose : Bool) :
    (read_plink fp bimRows famRows bedFile verbose).accessed
      = [fp ++ ".bim", fp ++ ".fam", fp ++ ".bed"] := by
  show [fp ++ "." ++ "bim", fp ++ "." ++ "fam", fp ++ "." ++ "bed"]
      = [fp ++ ".bim", fp ++ ".fam", fp ++ ".bed"]
  rw [String.append_assoc, String.append_assoc, String.append_assoc]
  rfl

/-- C8: the data returned by `read_plink` is identical for `verbose = true`
and `verbose = false`; the flag feeds only the diagnostic log (two-run
noninterference). -/
theorem read_plink_verbose_noninterference (fp : String)
    (bimRows : List MarkerRecord) (famRows : List SampleRecord)
    (bedFile : List Nat) :
    (read_plink fp bimRows famRows bedFile true).result
      = (read_plink fp bimRows famRows bedFile false).result ∧
    (read_plink fp bimRows famRows bedFile true).accessed
      = (read_plink fp bimRows famRows bedFile false).accessed :=
  ⟨rfl, rfl⟩

/-- C10: `_ascii_airlock` is the identity on `bytes` input, is idempotent on
every input, and always returns a `bytes` value. -/
theorem ascii_airlock_props (b : List Nat) (v : PyStrOrBytes) :
    ascii_airlock (.bytes b) = .bytes b ∧
    ascii_airlock (ascii_airlock v) = ascii_airlock v ∧
    isBytes (ascii_airlock v) = true := by
  refine ⟨rfl, ?_, ?_⟩ <;> cases v <;> rfl

/-- Witness for C2 at concrete orientation bytes 1, 0 and 7. -/
theorem major_order_byte2_witness :
    major_order "m" [108, 27, 1] = .ok "snp" ∧
    major_order "m" [108, 27, 0] = .ok "individual" ∧
    (∃ msg, major_order "m" [108, 27, 7] = .error (.valueError msg)) :=
  ⟨(major_order_byte2 "m" 108 27 1 []).1 rfl,
   (major_order_byte2 "m" 108 27 0 []).2.1 rfl,
   (major_order_byte2 "m" 108 27 7 []).2.2.mpr ⟨by decide, by decide⟩⟩

/-- Witness for C6 on concrete one-record tables. -/
theorem metadata_index_stable_witness :
    ((0, MarkerRecord.mk "1" "rs1" "0.0" 45162 "G" "C")
        ∈ read_bim_table [MarkerRecord.mk "1" "rs1" "0.0" 45162 "G" "C"]) ∧
    [MarkerRecord.mk "1" "rs1" "0.0" 45162 "G" "C"][(0 : Nat)]?
        = some (MarkerRecord.mk "1" "rs1" "0.0" 45162 "G" "C") ∧
    ((0, SampleRecord.mk "Sample_1" "Sample_1" "0" "0" "1" "-9")
        ∈ read_fam_table [SampleRecord.mk "Sample_1" "Sample_1" "0" "0" "1" "-9"]) ∧
    [SampleRecord.mk "Sample_1" "Sample_1" "0" "0" "1" "-9"][(0 : Nat)]?
        = some (SampleRecord.mk "Sample_1" "Sample_1" "0" "0" "1" "-9") := by
  have hm : (0, MarkerRecord.mk "1" "rs1" "0.0" 45162 "G" "C")
      ∈ read_bim_table [MarkerRecord.mk "1" "rs1" "0.0" 45162 "G" "C"] := by
    simp [read_bim_table, List.enum]
  have hs : (0, SampleRecord.mk "Sample_1" "Sample_1" "0" "0" "1" "-9")
      ∈ read_fam_table [SampleRecord.mk "Sample_1" "Sample_1" "0" "0" "1" "-9"] := by
    simp [read_fam_table, List.enum]
  exact ⟨hm,
    (metadata_index_stable [MarkerRecord.mk "1" "rs1" "0.0" 45162 "G" "C"]
      [SampleRecord.mk "Sample_1" "Sample_1" "0" "0" "1" "-9"]).2.1 _ hm,
    hs,
    (metadata_index_stable [MarkerRecord.mk "1" "rs1" "0.0" 45162 "G" "C"]
      [SampleRecord.mk "Sample_1" "Sample_1" "0" "0" "1" "-9"]).2.2.2 _ hs⟩
